import Mathlib

/-!
Shallow embedding of src/tools/mesh_converter.py, a single-pass converter
from Wavefront OBJ text to a JSON mesh document.

Strings are modelled as lists of characters; Python float() values are
modelled exactly, as a decimal mantissa with a power-of-ten exponent
(the decimal and exponent literal forms), with a view into the
rationals, and Python int() over the integers.  Fallible Python operations
(indexing, numeric conversion) return values in the Except monad, with
the error constructor recording which Python exception class is raised.
The top-level driver is modelled as a pure function from the argument
vector and the input file's text to a trace of file-system events plus
an optional uncaught exception.
-/

/-- Python exception classes that the script can raise. -/
inductive PyErr
  | indexError
  | valueError
  | nameError
  | exception
  deriving DecidableEq

/-- A Python string, modelled as its list of characters. -/
abbrev PyStr := List Char

/-- Characters of a Lean string literal, for writing concrete inputs. -/
def chars (s : String) : PyStr := s.data

/-- Python str.split(sep) with an explicit one-character separator:
splits at every occurrence, keeping empty fields, and returns a
nonempty list (the empty string splits to a single empty field). -/
def pySplitSep (sep : Char) : PyStr → List PyStr
  | [] => [[]]
  | c :: cs =>
    let r := pySplitSep sep cs
    if c = sep then [] :: r
    else
      match r with
      | [] => [[c]]
      | t :: ts => (c :: t) :: ts

/-- ASCII whitespace, as stripped by Python str.strip(). -/
def pyIsSpace (c : Char) : Bool :=
  c = ' ' || c = '\t' || c = '\n' || c = '\r' || c = '\x0b' || c = '\x0c'

/-- Python str.strip(): drop whitespace from both ends. -/
def pyStrip (s : PyStr) : PyStr :=
  ((s.dropWhile pyIsSpace).reverse.dropWhile pyIsSpace).reverse

/-- Numeric value of a run of decimal digits. -/
def digitsToNat (ds : PyStr) : ℕ :=
  ds.foldl (fun n c => 10 * n + (c.toNat - 48)) 0

/-- Python int(s) on decimal literals: strip whitespace, optional sign,
then a nonempty digit run; anything else raises ValueError. -/
def pyInt (s : PyStr) : Except PyErr ℤ :=
  let t := pyStrip s
  match t with
  | '+' :: ds =>
    if ds ≠ [] ∧ ds.all Char.isDigit then .ok (digitsToNat ds)
    else .error .valueError
  | '-' :: ds =>
    if ds ≠ [] ∧ ds.all Char.isDigit then .ok (-(digitsToNat ds : ℤ))
    else .error .valueError
  | ds =>
    if ds ≠ [] ∧ ds.all Char.isDigit then .ok (digitsToNat ds)
    else .error .valueError

/-- Exact value of a Python float literal: the signed run of mantissa
digits together with a power-of-ten exponent, denoting
mant * 10 ^ exp10.  The representation is computed with integer
arithmetic only; toRat gives its value in the rationals. -/
structure PyFloatV where
  mant : ℤ
  exp10 : ℤ
  deriving DecidableEq

/-- Rational value denoted by an exact float representation. -/
def PyFloatV.toRat (v : PyFloatV) : ℚ :=
  (v.mant : ℚ) * (10 : ℚ) ^ v.exp10

/-- Optional exponent suffix of a Python float literal, applied to an
already parsed mantissa: empty input leaves the mantissa unchanged,
an e or E followed by an optionally signed nonempty digit run shifts
the power-of-ten exponent, anything else fails. -/
def pyApplyExp (m : PyFloatV) (r : PyStr) : Option PyFloatV :=
  match r with
  | [] => some m
  | e :: r2 =>
    if e = 'e' ∨ e = 'E' then
      let sr : ℤ × PyStr :=
        match r2 with
        | '+' :: r3 => (1, r3)
        | '-' :: r3 => (-1, r3)
        | _ => (1, r2)
      if sr.2 ≠ [] ∧ sr.2.all Char.isDigit then
        some { m with exp10 := m.exp10 + sr.1 * (digitsToNat sr.2 : ℤ) }
      else none
    else none

/-- Unsigned Python float literal: digits, digits.digits, digits., or
.digits, each with an optional exponent. -/
def pyUFloat (t : PyStr) : Option PyFloatV :=
  let ip := t.takeWhile Char.isDigit
  let r1 := t.dropWhile Char.isDigit
  match r1 with
  | '.' :: r2 =>
    let fp := r2.takeWhile Char.isDigit
    let r3 := r2.dropWhile Char.isDigit
    if ip = [] ∧ fp = [] then none
    else
      pyApplyExp { mant := digitsToNat (ip ++ fp), exp10 := -(fp.length : ℤ) } r3
  | _ =>
    if ip = [] then none
    else pyApplyExp { mant := digitsToNat ip, exp10 := 0 } r1

/-- Python float(s) on decimal literals: strip whitespace, optional
sign, then an unsigned float literal; anything else raises
ValueError.  Values are modelled exactly. -/
def pyFloat (s : PyStr) : Except PyErr PyFloatV :=
  let t := pyStrip s
  let signed : Option PyFloatV :=
    match t with
    | '+' :: u => pyUFloat u
    | '-' :: u => (pyUFloat u).map (fun v => { v with mant := -v.mant })
    | u => pyUFloat u
  match signed with
  | some q => .ok q
  | none => .error .valueError

/-- Python list indexing lst[i], raising IndexError when out of range. -/
def listGet {α : Type} (l : List α) (i : ℕ) : Except PyErr α :=
  match l.get? i with
  | some a => .ok a
  | none => .error .indexError

/-- An entry of the Vertices output sequence: fields X, Y, Z. -/
structure Vertex where
  X : PyFloatV
  Y : PyFloatV
  Z : PyFloatV
  deriving DecidableEq

/-- An entry of the UVs output sequence: fields X, Y. -/
structure UVCoord where
  X : PyFloatV
  Y : PyFloatV
  deriving DecidableEq

deriving instance DecidableEq for Except

/-- The accumulated mesh document: the dictionary built by parse_mesh
and serialized to JSON by the driver. -/
structure Parsed where
  Vertices : List Vertex
  Indices : List ℤ
  UVs : List UVCoord
  PrimitiveType : ℕ
  deriving DecidableEq

/-- VERT_NAME = "v". -/
def VERT_NAME : PyStr := chars "v"

/-- UV_NAME = "vt". -/
def UV_NAME : PyStr := chars "vt"

/-- INDICES_NAME = "f". -/
def INDICES_NAME : PyStr := chars "f"

/-- VALID_VAR = [VERT_NAME, UV_NAME, INDICES_NAME]. -/
def VALID_VAR : List PyStr := [VERT_NAME, UV_NAME, INDICES_NAME]

/-- The initial dictionary of parse_mesh: three empty sequences and
PrimitiveType 4. -/
def initParsed : Parsed :=
  { Vertices := [], Indices := [], UVs := [], PrimitiveType := 4 }

/-- parse_vert: floats of pram[0], pram[1], pram[2] appended to the
Vertices sequence as fields X, Y, Z; extra tokens are never touched. -/
def parse_vert (pram : List PyStr) (parsed : Parsed) : Except PyErr Parsed := do
  let x ← pyFloat (← listGet pram 0)
  let y ← pyFloat (← listGet pram 1)
  let z ← pyFloat (← listGet pram 2)
  pure { parsed with Vertices := parsed.Vertices ++ [⟨x, y, z⟩] }

/-- parse_uv: floats of pram[0], pram[1] appended to the UVs sequence
as fields X, Y. -/
def parse_uv (pram : List PyStr) (parsed : Parsed) : Except PyErr Parsed := do
  let u ← pyFloat (← listGet pram 0)
  let v ← pyFloat (← listGet pram 1)
  pure { parsed with UVs := parsed.UVs ++ [⟨u, v⟩] }

/-- parse_indices: for each token in order, split on "/", parse the
first field as an integer, subtract one and append to Indices.  The
loop over the tokens is unrolled as structural recursion. -/
def parse_indices (pram : List PyStr) (parsed : Parsed) : Except PyErr Parsed :=
  match pram with
  | [] => .ok parsed
  | part :: rest => do
    let div := pySplitSep '/' part
    let mesh_index ← pyInt (div.headD [])
    parse_indices rest { parsed with Indices := parsed.Indices ++ [mesh_index - 1] }

/-- One iteration of the line loop of parse_mesh: strip the line, split
on single spaces, skip when the leading token is not in VALID_VAR,
otherwise dispatch the remaining tokens to the matching parser. -/
def process_line (parsed : Parsed) (rawLine : PyStr) : Except PyErr Parsed :=
  let line := pyStrip rawLine
  let sep := pySplitSep ' ' line
  if sep.headD [] ∉ VALID_VAR then .ok parsed
  else
    let send := sep.drop 1
    if sep.headD [] = VERT_NAME then parse_vert send parsed
    else if sep.headD [] = UV_NAME then parse_uv send parsed
    else if sep.headD [] = INDICES_NAME then parse_indices send parsed
    else .ok parsed

/-- The lines of the input file, as iterated by parse_mesh. -/
def pyLines (content : PyStr) : List PyStr := pySplitSep '\n' content

/-- The line loop of parse_mesh, unrolled as structural recursion over
the remaining lines. -/
def parse_mesh_loop (parsed : Parsed) : List PyStr → Except PyErr Parsed
  | [] => .ok parsed
  | l :: ls => do
    let p ← process_line parsed l
    parse_mesh_loop p ls

/-- parse_mesh: run the line loop over the file's lines starting from
the initial dictionary. -/
def parse_mesh (content : PyStr) : Except PyErr Parsed :=
  parse_mesh_loop initParsed (pyLines content)

/-- Last path component, as pathlib.PurePath.name. -/
def pyPathName (p : PyStr) : PyStr :=
  ((pySplitSep '/' p).filter (fun comp => comp ≠ [])).getLastD []

/-- pathlib.PurePath.suffixes: empty when the name ends in a dot,
otherwise one dot-prefixed suffix per dot-separated field after the
first of the name with its leading dots removed. -/
def pySuffixes (p : PyStr) : List PyStr :=
  let name := pyPathName p
  if name.getLast? = some '.' then []
  else
    ((pySplitSep '.' (name.dropWhile (fun c => c = '.'))).drop 1).map
      (fun sfx => '.' :: sfx)

/-- A file-system side effect of the driver. -/
inductive Event
  | readFile (path : PyStr)
  | writeFile (path : PyStr) (doc : Parsed)
  deriving DecidableEq

/-- The main driver: argv is the full sys.argv including the script
name, content is the text of the input file.  Returns the trace of
file-system events performed, and the uncaught exception if any:
wrong argument count raises Exception before any file access,
suffixes[-1] of a suffixless path raises IndexError, a non-.obj
suffix raises NameError, parse errors propagate after the read, and
a successful run reads the input then writes the parsed document. -/
def pymain (argv : List PyStr) (content : PyStr) : List Event × Option PyErr :=
  match argv with
  | [_, mesh_path, export_path] =>
    match (pySuffixes mesh_path).getLast? with
    | none => ([], some .indexError)
    | some sfx =>
      if sfx ≠ chars ".obj" then ([], some .nameError)
      else
        match parse_mesh content with
        | .error e => ([.readFile mesh_path], some e)
        | .ok parsed =>
          ([.readFile mesh_path, .writeFile export_path parsed], none)
  | _ => ([], some .exception)

/-- Specification form of parse_vert: the vertex a token list denotes,
when the first three tokens parse as floats. -/
def vertOf (pram : List PyStr) : Except PyErr Vertex := do
  let x ← pyFloat (← listGet pram 0)
  let y ← pyFloat (← listGet pram 1)
  let z ← pyFloat (← listGet pram 2)
  pure ⟨x, y, z⟩

/-- Specification form of parse_uv: the UV pair a token list denotes,
when the first two tokens parse as floats. -/
def uvOf (pram : List PyStr) : Except PyErr UVCoord := do
  let u ← pyFloat (← listGet pram 0)
  let v ← pyFloat (← listGet pram 1)
  pure ⟨u, v⟩

/-- The zero-based index one face token denotes: first slash-separated
field, parsed as an integer, minus one. -/
def faceTok (part : PyStr) : Except PyErr ℤ :=
  (pyInt ((pySplitSep '/' part).headD [])).map (fun k => k - 1)

/-- Specification form of parse_indices: the zero-based indices a face
token list denotes, one per token in token order. -/
def faceToksOf : List PyStr → Except PyErr (List ℤ)
  | [] => .ok []
  | t :: ts => do
    let k ← faceTok t
    let ks ← faceToksOf ts
    pure (k :: ks)

/-- The effect of one input line on the accumulated document. -/
inductive LineAct
  | skip
  | addVert (v : Vertex)
  | addUV (u : UVCoord)
  | addIdx (ks : List ℤ)
  deriving DecidableEq

/-- Apply a line effect to the accumulated document. -/
def applyAct (parsed : Parsed) : LineAct → Parsed
  | .skip => parsed
  | .addVert v => { parsed with Vertices := parsed.Vertices ++ [v] }
  | .addUV u => { parsed with UVs := parsed.UVs ++ [u] }
  | .addIdx ks => { parsed with Indices := parsed.Indices ++ ks }

/-- The effect a single raw line denotes, independent of the
accumulated state: mirrors the classification of process_line. -/
def lineResult (rawLine : PyStr) : Except PyErr LineAct :=
  let line := pyStrip rawLine
  let sep := pySplitSep ' ' line
  if sep.headD [] ∉ VALID_VAR then .ok .skip
  else
    let send := sep.drop 1
    if sep.headD [] = VERT_NAME then (vertOf send).map .addVert
    else if sep.headD [] = UV_NAME then (uvOf send).map .addUV
    else if sep.headD [] = INDICES_NAME then (faceToksOf send).map .addIdx
    else .ok .skip

/-- The effects of a list of lines, stopping at the first error. -/
def lineActsOf : List PyStr → Except PyErr (List LineAct)
  | [] => .ok []
  | l :: ls => do
    let a ← lineResult l
    let as ← lineActsOf ls
    pure (a :: as)

/-- Vertex added by a line effect, if any. -/
def actVert : LineAct → Option Vertex
  | .addVert v => some v
  | _ => none

/-- UV pair added by a line effect, if any. -/
def actUV : LineAct → Option UVCoord
  | .addUV u => some u
  | _ => none

/-- Index block added by a line effect, if any. -/
def actIdx : LineAct → Option (List ℤ)
  | .addIdx ks => some ks
  | _ => none

/-- The vertices of a file's lines, in file order. -/
def vertsOfContent (content : PyStr) : List Vertex :=
  (pyLines content).filterMap (fun l => (lineResult l).toOption.bind actVert)

/-- The UV pairs of a file's lines, in file order. -/
def uvsOfContent (content : PyStr) : List UVCoord :=
  (pyLines content).filterMap (fun l => (lineResult l).toOption.bind actUV)

/-- The per-face index blocks of a file's lines, in file order. -/
def idxChunksOfContent (content : PyStr) : List (List ℤ) :=
  (pyLines content).filterMap (fun l => (lineResult l).toOption.bind actIdx)

/-- Whether a fallible computation raised. -/
def exceptIsError {ε α : Type} : Except ε α → Bool
  | .error _ => true
  | .ok _ => false

/-- parse_vert acts on the state by appending the vertex its tokens
denote. -/
theorem parse_vert_eq (pram : List PyStr) (parsed : Parsed) :
    parse_vert pram parsed =
      (vertOf pram).map (fun v => { parsed with Vertices := parsed.Vertices ++ [v] }) := by
  simp only [parse_vert, vertOf]
  rcases listGet pram 0 with e | s0 <;> simp [bind, Except.bind, pure, Except.pure, Except.map]
  rcases pyFloat s0 with e | x <;> simp [bind, Except.bind, pure, Except.pure, Except.map]
  rcases listGet pram 1 with e | s1 <;> simp [bind, Except.bind, pure, Except.pure, Except.map]
  rcases pyFloat s1 with e | y <;> simp [bind, Except.bind, pure, Except.pure, Except.map]
  rcases listGet pram 2 with e | s2 <;> simp [bind, Except.bind, pure, Except.pure, Except.map]
  rcases pyFloat s2 with e | z <;> simp [bind, Except.bind, pure, Except.pure, Except.map]

/-- parse_uv acts on the state by appending the UV pair its tokens
denote. -/
theorem parse_uv_eq (pram : List PyStr) (parsed : Parsed) :
    parse_uv pram parsed =
      (uvOf pram).map (fun u => { parsed with UVs := parsed.UVs ++ [u] }) := by
  simp only [parse_uv, uvOf]
  rcases listGet pram 0 with e | s0 <;> simp [bind, Except.bind, pure, Except.pure, Except.map]
  rcases pyFloat s0 with e | u <;> simp [bind, Except.bind, pure, Except.pure, Except.map]
  rcases listGet pram 1 with e | s1 <;> simp [bind, Except.bind, pure, Except.pure, Except.map]
  rcases pyFloat s1 with e | v <;> simp [bind, Except.bind, pure, Except.pure, Except.map]

/-- parse_indices acts on the state by appending the block of indices
its tokens denote, in token order. -/
theorem parse_indices_eq (pram : List PyStr) (parsed : Parsed) :
    parse_indices pram parsed =
      (faceToksOf pram).map (fun ks => { parsed with Indices := parsed.Indices ++ ks }) := by
  induction pram generalizing parsed with
  | nil => simp [parse_indices, faceToksOf, Except.map, pure, Except.pure]
  | cons t ts ih =>
    rcases h : pyInt ((pySplitSep '/' t).headD []) with e | k
    · simp only [parse_indices, faceToksOf, faceTok, h, bind, Except.bind, Except.map]
    · simp only [parse_indices, faceToksOf, faceTok, h, bind, Except.bind, Except.map,
        pure, Except.pure]
      rw [ih]
      rcases faceToksOf ts with e2 | ks <;> simp [Except.map]

/-- process_line acts on the state by the effect its line denotes; in
particular whether it raises does not depend on the state. -/
theorem process_line_eq (parsed : Parsed) (rawLine : PyStr) :
    process_line parsed rawLine = (lineResult rawLine).map (applyAct parsed) := by
  simp only [process_line, lineResult]
  split_ifs with h1 h2 h3 h4
  · rw [parse_vert_eq]
    rcases vertOf ((pySplitSep ' ' (pyStrip rawLine)).drop 1) with e | v <;> rfl
  · rw [parse_uv_eq]
    rcases uvOf ((pySplitSep ' ' (pyStrip rawLine)).drop 1) with e | u <;> rfl
  · rw [parse_indices_eq]
    rcases faceToksOf ((pySplitSep ' ' (pyStrip rawLine)).drop 1) with e | ks <;> rfl
  · rfl
  · rfl

/-- The line loop applies the effects of its lines from left to right,
stopping at the first raising line. -/
theorem parse_mesh_loop_eq (ls : List PyStr) (p : Parsed) :
    parse_mesh_loop p ls = (lineActsOf ls).map (fun as => as.foldl applyAct p) := by
  induction ls generalizing p with
  | nil => rfl
  | cons l ls ih =>
    rcases h : lineResult l with e | a
    · simp only [parse_mesh_loop, process_line_eq, lineActsOf, h, bind, Except.bind, Except.map]
    · simp only [parse_mesh_loop, process_line_eq, lineActsOf, h, bind, Except.bind,
        Except.map, pure, Except.pure]
      rw [ih]
      rcases lineActsOf ls with e2 | as <;> simp [Except.map]

/-- Folding line effects appends to each sequence exactly its own
additions, in order, and never changes PrimitiveType. -/
theorem foldl_applyAct_spec (as : List LineAct) (p : Parsed) :
    (as.foldl applyAct p).Vertices = p.Vertices ++ as.filterMap actVert ∧
    (as.foldl applyAct p).UVs = p.UVs ++ as.filterMap actUV ∧
    (as.foldl applyAct p).Indices = p.Indices ++ (as.filterMap actIdx).flatten ∧
    (as.foldl applyAct p).PrimitiveType = p.PrimitiveType := by
  induction as generalizing p with
  | nil => simp
  | cons a as ih =>
    cases a <;>
      simp only [List.foldl_cons, applyAct, actVert, actUV, actIdx, List.filterMap_cons] <;>
      simp [ih, List.flatten, List.append_assoc]

/-- When every line succeeds, projecting the effect list is projecting
each line's effect, in file order. -/
theorem lineActsOf_ok_filterMap {β : Type} (proj : LineAct → Option β) :
    ∀ {ls : List PyStr} {as : List LineAct}, lineActsOf ls = .ok as →
      as.filterMap proj = ls.filterMap (fun l => (lineResult l).toOption.bind proj) := by
  intro ls
  induction ls with
  | nil => intro as h; cases h; simp
  | cons l ls ih =>
    intro as h
    rcases h1 : lineResult l with e | a <;>
      rcases h2 : lineActsOf ls with e2 | as2 <;>
      simp only [lineActsOf, h1, h2, bind, Except.bind, pure, Except.pure] at h <;>
      cases h
    simp [List.filterMap_cons, h1, Except.toOption, ih h2]

/-- A successful parse produces exactly the per-line vertices, UVs and
flattened index blocks of the file, in file order, with
PrimitiveType 4. -/
theorem parse_mesh_ok_spec {content : PyStr} {p : Parsed} (h : parse_mesh content = .ok p) :
    p.Vertices = vertsOfContent content ∧
    p.UVs = uvsOfContent content ∧
    p.Indices = (idxChunksOfContent content).flatten ∧
    p.PrimitiveType = 4 := by
  rw [parse_mesh, parse_mesh_loop_eq] at h
  rcases h2 : lineActsOf (pyLines content) with e | as
  · rw [h2] at h; cases h
  · rw [h2] at h
    simp only [Except.map] at h
    cases h
    obtain ⟨hV, hU, hI, hP⟩ := foldl_applyAct_spec as initParsed
    refine ⟨?_, ?_, ?_, ?_⟩
    · rw [hV, lineActsOf_ok_filterMap actVert h2]; simp [vertsOfContent, initParsed]
    · rw [hU, lineActsOf_ok_filterMap actUV h2]; simp [uvsOfContent, initParsed]
    · rw [hI, lineActsOf_ok_filterMap actIdx h2]; simp [idxChunksOfContent, initParsed]
    · rw [hP]; rfl

/-- If any line of the input raises, the whole line loop raises. -/
theorem parse_mesh_loop_error_of_mem {ls : List PyStr} {l : PyStr} (hmem : l ∈ ls)
    (herr : exceptIsError (lineResult l) = true) (p : Parsed) :
    exceptIsError (parse_mesh_loop p ls) = true := by
  induction ls generalizing p with
  | nil => cases hmem
  | cons hd tl ih =>
    rcases h : lineResult hd with e | a
    · simp [parse_mesh_loop, process_line_eq, h, bind, Except.bind, exceptIsError, Except.map]
    · rcases List.mem_cons.mp hmem with heq | hmem2
      · rw [heq, h] at herr; simp [exceptIsError] at herr
      · simp only [parse_mesh_loop, process_line_eq, h, Except.map, bind, Except.bind]
        exact ih hmem2 _

/-- A write event in the trace carries exactly the successfully parsed
document of the input content. -/
theorem pymain_write_mem {argv : List PyStr} {content : PyStr} {pth : PyStr} {doc : Parsed}
    (h : Event.writeFile pth doc ∈ (pymain argv content).1) :
    parse_mesh content = .ok doc := by
  rcases argv with _ | ⟨a, _ | ⟨b, _ | ⟨c, _ | ⟨d, rest⟩⟩⟩⟩ <;>
    try simp [pymain] at h
  rcases hs : (pySuffixes b).getLast? with _ | sfx
  · simp [pymain, hs] at h
  · by_cases hobj : sfx = chars ".obj"
    · rcases hp : parse_mesh content with e | parsed
      · simp [pymain, hs, hobj, hp] at h
      · simp [pymain, hs, hobj, hp] at h
        rw [h.2]
    · simp [pymain, hs, hobj] at h

/-- When parsing raises, no write event can be in the trace. -/
theorem pymain_no_write_of_parse_error {argv : List PyStr} {content : PyStr}
    (h : exceptIsError (parse_mesh content) = true) (pth : PyStr) (doc : Parsed) :
    Event.writeFile pth doc ∉ (pymain argv content).1 := by
  intro hmem
  rw [pymain_write_mem hmem] at h
  simp [exceptIsError] at h

/-- When a face token list fully parses, the resulting index block has
one entry per token: the token's first slash field as an integer,
minus one. -/
theorem faceToksOf_ok_spec : ∀ {pram : List PyStr} {ks : List ℤ}, faceToksOf pram = .ok ks →
    ks.length = pram.length ∧
    ∀ i : Fin pram.length, ∃ k : ℤ,
      pyInt ((pySplitSep '/' (pram.get i)).headD []) = .ok k ∧ ks[i.val]? = some (k - 1) := by
  intro pram
  induction pram with
  | nil =>
    intro ks h
    cases h
    exact ⟨rfl, fun i => i.elim0⟩
  | cons t ts ih =>
    intro ks h
    rcases h1 : pyInt ((pySplitSep '/' t).headD []) with e | k0 <;>
      rcases h2 : faceToksOf ts with e2 | ks2 <;>
      simp only [faceToksOf, faceTok, h1, h2, bind, Except.bind, Except.map, pure,
        Except.pure] at h <;>
      cases h
    obtain ⟨hlen, hpt⟩ := ih h2
    refine ⟨by simp [hlen], ?_⟩
    intro i
    refine Fin.cases ?_ ?_ i
    · exact ⟨k0, h1, by simp⟩
    · intro j
      obtain ⟨k, hk1, hk2⟩ := hpt j
      exact ⟨k, hk1, by simpa using hk2⟩

/-- C1: every face line with n token references appends exactly n
entries to Indices, in token order, each the integer value of the
token's first slash-separated field minus one; UV and normal fields
are discarded, a line with more than 3 references is not subdivided,
and the line "f 1/1/1 2/2/2 3/3/3" yields Indices [0, 1, 2]. -/
theorem C1_face_line_appends_indices :
    (∀ (pram : List PyStr) (parsed p2 : Parsed), parse_indices pram parsed = .ok p2 →
      ∃ ks : List ℤ,
        p2 = { parsed with Indices := parsed.Indices ++ ks } ∧
        ks.length = pram.length ∧
        ∀ i : Fin pram.length, ∃ k : ℤ,
          pyInt ((pySplitSep '/' (pram.get i)).headD []) = .ok k ∧
          ks[i.val]? = some (k - 1)) ∧
    parse_mesh (chars "f 1/1/1 2/2/2 3/3/3") =
      .ok { Vertices := [], Indices := [0, 1, 2], UVs := [], PrimitiveType := 4 } := by
  constructor
  · intro pram parsed p2 hok
    rw [parse_indices_eq] at hok
    rcases hf : faceToksOf pram with e | ks
    · rw [hf] at hok; cases hok
    · rw [hf] at hok
      simp only [Except.map] at hok
      cases hok
      obtain ⟨hlen, hpt⟩ := faceToksOf_ok_spec hf
      exact ⟨ks, rfl, hlen, hpt⟩
  · decide

/-- C1 witness: a four-token face line (including slash forms) appends
exactly four entries, in token order, without subdivision. -/
theorem C1_face_line_appends_indices_witness :
    ∃ ks : List ℤ,
      ({ Vertices := [], Indices := [0, 1, 6, 8], UVs := [], PrimitiveType := 4 } : Parsed) =
        { initParsed with Indices := initParsed.Indices ++ ks } ∧
      ks.length = [chars "1/1/1", chars "2/2", chars "7", chars "9/4"].length ∧
      ∀ i : Fin [chars "1/1/1", chars "2/2", chars "7", chars "9/4"].length, ∃ k : ℤ,
        pyInt ((pySplitSep '/' ([chars "1/1/1", chars "2/2", chars "7", chars "9/4"].get i)).headD
          []) = .ok k ∧
        ks[i.val]? = some (k - 1) :=
  C1_face_line_appends_indices.1 [chars "1/1/1", chars "2/2", chars "7", chars "9/4"] initParsed
    { Vertices := [], Indices := [0, 1, 6, 8], UVs := [], PrimitiveType := 4 } (by decide)

/-- C2: a recognized line on which a numeric field fails to convert
makes parsing raise, and then no write event ever happens: no output
file is written for any argument vector. -/
theorem C2_parse_error_aborts (content line : PyStr)
    (hmem : line ∈ pyLines content)
    (herr : lineResult line = .error PyErr.valueError) :
    exceptIsError (parse_mesh content) = true ∧
    ∀ (argv : List PyStr) (pth : PyStr) (doc : Parsed),
      Event.writeFile pth doc ∉ (pymain argv content).1 := by
  have h1 : exceptIsError (parse_mesh content) = true :=
    parse_mesh_loop_error_of_mem hmem (by rw [herr]; rfl) initParsed
  exact ⟨h1, fun argv pth doc => pymain_no_write_of_parse_error h1 pth doc⟩

/-- C2 witness: the input "v a 2.0 3.0" makes the run raise and the
trace of a full run on it contains no write event. -/
theorem C2_parse_error_aborts_witness :
    exceptIsError (parse_mesh (chars "v a 2.0 3.0")) = true ∧
    Event.writeFile (chars "out.json") initParsed ∉
      (pymain [chars "conv", chars "m.obj", chars "out.json"] (chars "v a 2.0 3.0")).1 :=
  ⟨(C2_parse_error_aborts (chars "v a 2.0 3.0") (chars "v a 2.0 3.0") (by decide) (by decide)).1,
   (C2_parse_error_aborts (chars "v a 2.0 3.0") (chars "v a 2.0 3.0") (by decide) (by decide)).2
     [chars "conv", chars "m.obj", chars "out.json"] (chars "out.json") initParsed⟩

/-- C3: on success each output sequence lists exactly the entries
contributed by its own lines in file order, with no reordering,
deduplication, mutation or removal; index blocks are flattened in
file order; and no referential check is made: "f 5" succeeds with
index 4 although no vertex exists. -/
theorem C3_sequences_in_file_order (content : PyStr) (p : Parsed)
    (h : parse_mesh content = .ok p) :
    p.Vertices = vertsOfContent content ∧
    p.UVs = uvsOfContent content ∧
    p.Indices = (idxChunksOfContent content).flatten ∧
    parse_mesh (chars "f 5") =
      .ok { Vertices := [], Indices := [4], UVs := [], PrimitiveType := 4 } := by
  obtain ⟨h1, h2, h3, _⟩ := parse_mesh_ok_spec h
  exact ⟨h1, h2, h3, by decide⟩

/-- C3 witness: a file interleaving vertex, UV and face lines keeps
each sequence in its own file order. -/
theorem C3_sequences_in_file_order_witness :
    (({ Vertices := [⟨⟨1, 0⟩, ⟨2, 0⟩, ⟨3, 0⟩⟩, ⟨⟨4, 0⟩, ⟨5, 0⟩, ⟨6, 0⟩⟩], Indices := [0, 1, 2],
        UVs := [⟨⟨5, -1⟩, ⟨5, -1⟩⟩], PrimitiveType := 4 } : Parsed)).Vertices =
      vertsOfContent (chars "v 1 2 3\nvt 0.5 0.5\nf 1/1 2/2 3/3\nv 4 5 6") ∧
    (({ Vertices := [⟨⟨1, 0⟩, ⟨2, 0⟩, ⟨3, 0⟩⟩, ⟨⟨4, 0⟩, ⟨5, 0⟩, ⟨6, 0⟩⟩], Indices := [0, 1, 2],
        UVs := [⟨⟨5, -1⟩, ⟨5, -1⟩⟩], PrimitiveType := 4 } : Parsed)).UVs =
      uvsOfContent (chars "v 1 2 3\nvt 0.5 0.5\nf 1/1 2/2 3/3\nv 4 5 6") ∧
    (({ Vertices := [⟨⟨1, 0⟩, ⟨2, 0⟩, ⟨3, 0⟩⟩, ⟨⟨4, 0⟩, ⟨5, 0⟩, ⟨6, 0⟩⟩], Indices := [0, 1, 2],
        UVs := [⟨⟨5, -1⟩, ⟨5, -1⟩⟩], PrimitiveType := 4 } : Parsed)).Indices =
      (idxChunksOfContent (chars "v 1 2 3\nvt 0.5 0.5\nf 1/1 2/2 3/3\nv 4 5 6")).flatten ∧
    parse_mesh (chars "f 5") =
      .ok { Vertices := [], Indices := [4], UVs := [], PrimitiveType := 4 } :=
  C3_sequences_in_file_order (chars "v 1 2 3\nvt 0.5 0.5\nf 1/1 2/2 3/3\nv 4 5 6")
    { Vertices := [⟨⟨1, 0⟩, ⟨2, 0⟩, ⟨3, 0⟩⟩, ⟨⟨4, 0⟩, ⟨5, 0⟩, ⟨6, 0⟩⟩], Indices := [0, 1, 2],
      UVs := [⟨⟨5, -1⟩, ⟨5, -1⟩⟩], PrimitiveType := 4 } (by decide)

/-- C4: every document carried by a write event of a successful run has
PrimitiveType exactly 4, whatever the input content. -/
theorem C4_primitive_type_constant (argv : List PyStr) (content : PyStr)
    (pth : PyStr) (doc : Parsed)
    (h : Event.writeFile pth doc ∈ (pymain argv content).1) :
    doc.PrimitiveType = 4 :=
  (parse_mesh_ok_spec (pymain_write_mem h)).2.2.2

/-- C4 witness: the document written for a quad face input has
PrimitiveType 4. -/
theorem C4_primitive_type_constant_witness :
    (({ Vertices := [], Indices := [0, 1, 2, 3], UVs := [], PrimitiveType := 4 } :
      Parsed)).PrimitiveType = 4 :=
  C4_primitive_type_constant [chars "conv", chars "m.obj", chars "out.json"]
    (chars "f 1 2 3 4") (chars "out.json")
    { Vertices := [], Indices := [0, 1, 2, 3], UVs := [], PrimitiveType := 4 } (by decide)

/-- C5: a vertex line whose first three tokens parse as floats appends
exactly one vertex taking those tokens positionally as X, Y, Z, with
any extra tokens ignored; the file "v 1.0 2.0 3.0" yields exactly one
vertex of value (1, 2, 3) and empty Indices and UVs. -/
theorem C5_vertex_line_positional (s0 s1 s2 : PyStr) (rest : List PyStr) (parsed : Parsed)
    (x y z : PyFloatV)
    (h0 : pyFloat s0 = .ok x) (h1 : pyFloat s1 = .ok y) (h2 : pyFloat s2 = .ok z) :
    parse_vert (s0 :: s1 :: s2 :: rest) parsed =
      .ok { parsed with Vertices := parsed.Vertices ++ [⟨x, y, z⟩] } ∧
    parse_mesh (chars "v 1.0 2.0 3.0") =
      .ok { Vertices := [⟨⟨10, -1⟩, ⟨20, -1⟩, ⟨30, -1⟩⟩], Indices := [], UVs := [],
            PrimitiveType := 4 } ∧
    PyFloatV.toRat ⟨10, -1⟩ = 1 ∧ PyFloatV.toRat ⟨20, -1⟩ = 2 ∧ PyFloatV.toRat ⟨30, -1⟩ = 3 := by
  refine ⟨?_, by decide, ?_, ?_, ?_⟩
  · simp [parse_vert, listGet, h0, h1, h2, bind, Except.bind, pure, Except.pure]
  · norm_num [PyFloatV.toRat]
  · norm_num [PyFloatV.toRat]
  · norm_num [PyFloatV.toRat]

/-- C5 witness: extra tokens after the third are ignored. -/
theorem C5_vertex_line_positional_witness :
    parse_vert [chars "7", chars "8", chars "9", chars "extra", chars "tokens"] initParsed =
      .ok { initParsed with
            Vertices := initParsed.Vertices ++ [⟨⟨7, 0⟩, ⟨8, 0⟩, ⟨9, 0⟩⟩] } ∧
    parse_mesh (chars "v 1.0 2.0 3.0") =
      .ok { Vertices := [⟨⟨10, -1⟩, ⟨20, -1⟩, ⟨30, -1⟩⟩], Indices := [], UVs := [],
            PrimitiveType := 4 } ∧
    PyFloatV.toRat ⟨10, -1⟩ = 1 ∧ PyFloatV.toRat ⟨20, -1⟩ = 2 ∧ PyFloatV.toRat ⟨30, -1⟩ = 3 :=
  C5_vertex_line_positional (chars "7") (chars "8") (chars "9") [chars "extra", chars "tokens"]
    initParsed ⟨7, 0⟩ ⟨8, 0⟩ ⟨9, 0⟩ (by decide) (by decide) (by decide)

/-- C6: every line whose leading token is outside the recognized set is
silently skipped, leaving the state unchanged and raising nothing;
comments, object directives, normals and blank lines all leave the
output empty. -/
theorem C6_unrecognized_skipped (rawLine : PyStr) (parsed : Parsed)
    (h : (pySplitSep ' ' (pyStrip rawLine)).headD [] ∉ VALID_VAR) :
    process_line parsed rawLine = .ok parsed ∧
    parse_mesh (chars "# comment\no ObjectName\nvn 0 0 1\n") = .ok initParsed := by
  refine ⟨?_, by decide⟩
  simp only [process_line]
  rw [if_pos h]

/-- C6 witness: a comment line leaves the state unchanged, and a file
of only unrecognized lines parses to the empty document. -/
theorem C6_unrecognized_skipped_witness :
    process_line initParsed (chars "# comment") = .ok initParsed ∧
    parse_mesh (chars "# comment\no ObjectName\nvn 0 0 1\n") = .ok initParsed :=
  C6_unrecognized_skipped (chars "# comment") initParsed (by decide)

/-- C7: with a well-formed argument vector, an input path whose final
suffix is not exactly ".obj" (including a path with no suffix at
all) aborts with IndexError or NameError and the trace stays empty:
the input file is never read and nothing is parsed or written. -/
theorem C7_bad_suffix_aborts (prog mesh_path export_path content : PyStr)
    (h : (pySuffixes mesh_path).getLast? ≠ some (chars ".obj")) :
    (pymain [prog, mesh_path, export_path] content).1 = [] ∧
    ∃ e, (pymain [prog, mesh_path, export_path] content).2 = some e ∧
      (e = PyErr.indexError ∨ e = PyErr.nameError) := by
  rcases hs : (pySuffixes mesh_path).getLast? with _ | sfx
  · simp [pymain, hs]
  · have hne : sfx ≠ chars ".obj" := fun heq => h (heq ▸ hs)
    simp [pymain, hs, hne]

/-- C7 witness: a ".txt" input path and a suffixless input path both
abort with an empty trace. -/
theorem C7_bad_suffix_aborts_witness :
    (pymain [chars "conv", chars "m.txt", chars "out.json"] (chars "v 1 2 3")).1 = [] ∧
    ∃ e, (pymain [chars "conv", chars "m.txt", chars "out.json"] (chars "v 1 2 3")).2 = some e ∧
      (e = PyErr.indexError ∨ e = PyErr.nameError) :=
  C7_bad_suffix_aborts (chars "conv") (chars "m.txt") (chars "out.json") (chars "v 1 2 3")
    (by decide)

/-- C8: an argument vector of any length other than three (script name
plus the two positional arguments) terminates with the usage
exception and an empty trace: no file is read or written. -/
theorem C8_wrong_argc_aborts (argv : List PyStr) (content : PyStr) (h : argv.length ≠ 3) :
    pymain argv content = ([], some PyErr.exception) := by
  rcases argv with _ | ⟨a, _ | ⟨b, _ | ⟨c, _ | ⟨d, rest⟩⟩⟩⟩
  · rfl
  · rfl
  · rfl
  · exact absurd rfl h
  · rfl

/-- C8 witness: one user argument (argv length two) aborts with the
usage exception and an empty trace. -/
theorem C8_wrong_argc_aborts_witness :
    pymain [chars "conv", chars "m.obj"] (chars "v 1 2 3") = ([], some PyErr.exception) :=
  C8_wrong_argc_aborts [chars "conv", chars "m.obj"] (chars "v 1 2 3") (by decide)

/-- C9: a vertex line with fewer than three tokens after the marker,
and a UV line with fewer than two, abort with IndexError (not
ValueError) even when every present token is a valid float; on such
input a full run reads the input but writes nothing. -/
theorem C9_short_line_index_error (send send2 : List PyStr) (parsed : Parsed)
    (h3 : send.length < 3) (hok : ∀ t ∈ send, exceptIsError (pyFloat t) = false)
    (h2 : send2.length < 2) (hok2 : ∀ t ∈ send2, exceptIsError (pyFloat t) = false) :
    parse_vert send parsed = .error PyErr.indexError ∧
    parse_uv send2 parsed = .error PyErr.indexError ∧
    pymain [chars "conv", chars "m.obj", chars "out.json"] (chars "v 1.0 2.0") =
      ([Event.readFile (chars "m.obj")], some PyErr.indexError) := by
  refine ⟨?_, ?_, by decide⟩
  · rcases send with _ | ⟨a, _ | ⟨b, _ | ⟨c, r⟩⟩⟩
    · rfl
    · rcases ha : pyFloat a with e | x
      · exact absurd (hok a (by simp)) (by simp [ha, exceptIsError])
      · simp [parse_vert, listGet, ha, bind, Except.bind]
    · rcases ha : pyFloat a with e | x
      · exact absurd (hok a (by simp)) (by simp [ha, exceptIsError])
      · rcases hb : pyFloat b with e | y
        · exact absurd (hok b (by simp)) (by simp [hb, exceptIsError])
        · simp [parse_vert, listGet, ha, hb, bind, Except.bind]
    · simp at h3
      omega
  · rcases send2 with _ | ⟨a, _ | ⟨b, r⟩⟩
    · rfl
    · rcases ha : pyFloat a with e | x
      · exact absurd (hok2 a (by simp)) (by simp [ha, exceptIsError])
      · simp [parse_uv, listGet, ha, bind, Except.bind]
    · simp at h2
      omega

/-- C9 witness: "v 1.0 2.0" (two valid floats) raises IndexError in the
vertex parser, "vt 1.0" in the UV parser, and the run writes no
output. -/
theorem C9_short_line_index_error_witness :
    parse_vert [chars "1.0", chars "2.0"] initParsed = .error PyErr.indexError ∧
    parse_uv [chars "1.0"] initParsed = .error PyErr.indexError ∧
    pymain [chars "conv", chars "m.obj", chars "out.json"] (chars "v 1.0 2.0") =
      ([Event.readFile (chars "m.obj")], some PyErr.indexError) :=
  C9_short_line_index_error [chars "1.0", chars "2.0"] [chars "1.0"] initParsed (by decide)
    (by decide) (by decide) (by decide)

/-- C10: the written document is a pure function of the input text:
any two runs on the same content that write at all write the same
document, namely the unique successful parse of that content. -/
theorem C10_deterministic (argv1 argv2 : List PyStr) (content : PyStr)
    (pth1 pth2 : PyStr) (doc1 doc2 : Parsed)
    (h1 : Event.writeFile pth1 doc1 ∈ (pymain argv1 content).1)
    (h2 : Event.writeFile pth2 doc2 ∈ (pymain argv2 content).1) :
    doc1 = doc2 ∧ parse_mesh content = .ok doc1 := by
  have e1 := pymain_write_mem h1
  have e2 := pymain_write_mem h2
  rw [e1] at e2
  cases e2
  exact ⟨rfl, e1⟩

/-- C10 witness: two runs on the same content with different argument
vectors write the same document. -/
theorem C10_deterministic_witness :
    ({ Vertices := [⟨⟨1, 0⟩, ⟨2, 0⟩, ⟨3, 0⟩⟩], Indices := [], UVs := [],
       PrimitiveType := 4 } : Parsed) =
      { Vertices := [⟨⟨1, 0⟩, ⟨2, 0⟩, ⟨3, 0⟩⟩], Indices := [], UVs := [],
        PrimitiveType := 4 } ∧
    parse_mesh (chars "v 1 2 3") =
      .ok { Vertices := [⟨⟨1, 0⟩, ⟨2, 0⟩, ⟨3, 0⟩⟩], Indices := [], UVs := [],
            PrimitiveType := 4 } :=
  C10_deterministic [chars "conv", chars "a.obj", chars "out1.json"]
    [chars "tool", chars "b.obj", chars "out2.json"] (chars "v 1 2 3")
    (chars "out1.json") (chars "out2.json") _ _ (by decide) (by decide)
